import Mathlib

/-!
Verification of the Jakob and Hanika (2019) reflectance-recovery core
(`colour/recovery/jakob2019.py`): the spectral model, the error function and
its analytic gradient, coefficient (non)dimensionalisation, the solver's
shape-realignment step, and the lookup-table loader/interpolator.

Python floats are idealised as exact rationals `ℚ` where the code only does
field arithmetic, and as reals `ℝ` where square roots and cube roots appear.
-/

namespace Jakob2019

/-- `SpectralShape(start, end, interval)`: wavelength sampling descriptor in
nanometers, as used by `jakob2019.py` (its own code lives outside the staged
sources). -/
structure SpectralShape where
  start : ℚ
  stop : ℚ
  interval : ℚ
  deriving DecidableEq, Repr

/-- Modelled from the spec: `SpectralShape` "defines an ordered sequence of
sample wavelengths `start, start+interval, …, end`"; this is the number of
samples of that sequence (`len(shape.range())`). -/
def SpectralShape.numSamples (s : SpectralShape) : ℕ :=
  (⌊(s.stop - s.start) / s.interval⌋ + 1).toNat

/-- Modelled from the spec: `SpectralShape.range()`, the ordered sequence of
sample wavelengths `start, start+interval, …, end`. -/
def SpectralShape.range (s : SpectralShape) : List ℚ :=
  (List.range s.numSamples).map fun k => s.start + k * s.interval

/-- `dimensionalise_coefficients(coefficients, shape)`: rescale dimensionless
coefficients from the `[0, 1]` normalised domain back to the shape's nanometer
domain (`jakob2019.py`, lines 190-222). -/
def dimensionalise_coefficients (c : ℚ × ℚ × ℚ) (shape : SpectralShape) :
    ℚ × ℚ × ℚ :=
  let span := shape.stop - shape.start
  (c.1 / span ^ 2,
   c.2.1 / span - 2 * c.1 * shape.start / span ^ 2,
   c.1 * shape.start ^ 2 / span ^ 2 - c.2.1 * shape.start / span + c.2.2)

/-- Modelled from the spec: the normalisation that `dimensionalise_coefficients`
"reverses" — re-expressing the quadratic `c0·λ² + c1·λ + c2` in the
nondimensional variable `t = (λ - start)/span`, i.e. substituting
`λ = start + span·t`.  No such function exists in the staged sources; this is
the inverse transform the spec describes. -/
def nondimensionalise_coefficients (c : ℚ × ℚ × ℚ) (shape : SpectralShape) :
    ℚ × ℚ × ℚ :=
  let span := shape.stop - shape.start
  (c.1 * span ^ 2,
   c.2.1 * span + 2 * c.1 * shape.start * span,
   c.1 * shape.start ^ 2 + c.2.1 * shape.start + c.2.2)

/-- The quadratic `c0·λ² + c1·λ + c2` of the spectral model, over `ℚ`. -/
def quadratic (c : ℚ × ℚ × ℚ) (x : ℚ) : ℚ :=
  c.1 * x ^ 2 + c.2.1 * x + c.2.2

noncomputable section

/-- The inputs of `error_function_Jakob2019` other than the shape: the
coefficients, the target Lab triplet, the colour-matching functions
(wavelengths and per-channel values), the illuminant values, and the
illuminant's XYZ.  Arrays are idealised as functions from the sample index. -/
structure ErrorInputs where
  c0 : ℝ
  c1 : ℝ
  c2 : ℝ
  target : Fin 3 → ℝ
  cmfsWl : ℕ → ℝ
  cmfsV : ℕ → Fin 3 → ℝ
  illValues : ℕ → ℝ
  illuminantXYZ : Fin 3 → ℝ

/-- `np.linspace(0, 1, n)`, element `i`: the wavelength axis normalised to
`[0, 1]` (`wv` in `error_function_Jakob2019`). -/
def wvAxis (n i : ℕ) : ℝ := (i : ℝ) / ((n : ℝ) - 1)

/-- `U = c_0 * wv ** 2 + c_1 * wv + c_2`. -/
def Ufun (A : ErrorInputs) (n i : ℕ) : ℝ :=
  A.c0 * wvAxis n i ^ 2 + A.c1 * wvAxis n i + A.c2

/-- `t1 = np.sqrt(1 + U**2)`. -/
def t1fun (A : ErrorInputs) (n i : ℕ) : ℝ := Real.sqrt (1 + Ufun A n i ^ 2)

/-- `R = 1 / 2 + U / (2 * t1)`. -/
def Rfun (A : ErrorInputs) (n i : ℕ) : ℝ :=
  1 / 2 + Ufun A n i / (2 * t1fun A n i)

/-- `t2 = 1 / (2 * t1) - U**2 / (2 * t1**3)`. -/
def t2fun (A : ErrorInputs) (n i : ℕ) : ℝ :=
  1 / (2 * t1fun A n i) - Ufun A n i ^ 2 / (2 * t1fun A n i ^ 3)

/-- `dR = np.array([wv**2 * t2, wv * t2, t2])`. -/
def dRfun (A : ErrorInputs) (n : ℕ) (j : Fin 3) (i : ℕ) : ℝ :=
  ![wvAxis n i ^ 2 * t2fun A n i, wvAxis n i * t2fun A n i, t2fun A n i] j

/-- `E = illuminant.values * R`. -/
def Efun (A : ErrorInputs) (n i : ℕ) : ℝ := A.illValues i * Rfun A n i

/-- `dE = illuminant.values * dR`. -/
def dEfun (A : ErrorInputs) (n : ℕ) (j : Fin 3) (i : ℕ) : ℝ :=
  A.illValues i * dRfun A n j i

/-- `dw = cmfs.wavelengths[1] - cmfs.wavelengths[0]`. -/
def dwOf (A : ErrorInputs) : ℝ := A.cmfsWl 1 - A.cmfsWl 0

/-- `k = 100 / (np.sum(cmfs.values[:, 1] * illuminant.values) * dw)`. -/
def kOf (A : ErrorInputs) (n : ℕ) : ℝ :=
  100 / ((∑ i ∈ Finset.range n, A.cmfsV i 1 * A.illValues i) * dwOf A)

/-- `XYZ[i] = k * np.dot(E, cmfs.values[:, i]) * dw`. -/
def XYZof (A : ErrorInputs) (n : ℕ) (a : Fin 3) : ℝ :=
  kOf A n * (∑ i ∈ Finset.range n, Efun A n i * A.cmfsV i a) * dwOf A

/-- `dXYZ[i, j] = k * np.dot(dE[j], cmfs.values[:, i]) * dw`. -/
def dXYZof (A : ErrorInputs) (n : ℕ) (a j : Fin 3) : ℝ :=
  kOf A n * (∑ i ∈ Finset.range n, dEfun A n j i * A.cmfsV i a) * dwOf A

/-- `f = (XYZ / illuminant_XYZ)**(1/3)` (real power). -/
def fof (A : ErrorInputs) (n : ℕ) (a : Fin 3) : ℝ :=
  (XYZof A n a / A.illuminantXYZ a) ^ ((1 : ℝ) / 3)

/-- `df[i, j] = 1 / (3 * illuminant_XYZ[i]**(1/3) * XYZ[i]**(2/3)) * dXYZ[i, j]`. -/
def dfof (A : ErrorInputs) (n : ℕ) (a j : Fin 3) : ℝ :=
  1 / (3 * A.illuminantXYZ a ^ ((1 : ℝ) / 3) * XYZof A n a ^ ((2 : ℝ) / 3)) *
    dXYZof A n a j

/-- `Lab = [116 * f[1] - 16, 500 * (f[0] - f[1]), 200 * (f[1] - f[2])]`. -/
def LabOf (A : ErrorInputs) (n : ℕ) : Fin 3 → ℝ :=
  ![116 * fof A n 1 - 16, 500 * (fof A n 0 - fof A n 1),
    200 * (fof A n 1 - fof A n 2)]

/-- `dLab = [116 * df[1], 500 * (df[0] - df[1]), 200 * (df[1] - df[2])]`. -/
def dLabOf (A : ErrorInputs) (n : ℕ) (a j : Fin 3) : ℝ :=
  ![116 * dfof A n 1 j, 500 * (dfof A n 0 j - dfof A n 1 j),
    200 * (dfof A n 1 j - dfof A n 2 j)] a

/-- `error = np.sqrt(np.sum((Lab - target)**2))`. -/
def errorOf (A : ErrorInputs) (n : ℕ) : ℝ :=
  Real.sqrt (∑ a : Fin 3, (LabOf A n a - A.target a) ^ 2)

/-- `derror[i] = (Σ_j dLab[j, i] * (Lab[j] - target[j])) / error`. -/
def derrorOf (A : ErrorInputs) (n : ℕ) (i : Fin 3) : ℝ :=
  (∑ j : Fin 3, dLabOf A n j i * (LabOf A n j - A.target j)) / errorOf A n

/-- `error_function_Jakob2019(coefficients, target, shape, cmfs, illuminant,
illuminant_XYZ)`: the error and its gradient (`jakob2019.py`, lines 78-186).
The shape enters only through `len(shape.range())`, the sample count of the
`[0, 1]`-normalised axis. -/
def error_function_Jakob2019 (A : ErrorInputs) (shape : SpectralShape) :
    ℝ × (Fin 3 → ℝ) :=
  (errorOf A shape.numSamples, derrorOf A shape.numSamples)

/-- `spectral_model(coefficients, shape)`: the reflectance
`R(λ) = 1/2 + U/(2·√(1+U²))`, `U = c0·λ² + c1·λ + c2`, sampled at the shape's
wavelengths (`jakob2019.py`, lines 56-71); the distribution is the list of
(wavelength, value) pairs. -/
def spectral_model (c : ℝ × ℝ × ℝ) (shape : SpectralShape) : List (ℚ × ℝ) :=
  shape.range.map fun (wl : ℚ) =>
    let U : ℝ := c.1 * (wl : ℝ) ^ 2 + c.2.1 * (wl : ℝ) + c.2.2
    (wl, 1 / 2 + U / (2 * Real.sqrt (1 + U ^ 2)))

end

/-! ### The table loader (`Jakob2019Interpolator.from_file`)

The file is a byte list; 32-bit floats are kept as their raw 4-byte groups
(no claim depends on the decoded float values). -/

/-- The fields `from_file` assigns on the interpolator object (`self.res`,
`self.scale`, `self.cubes`); `none` = never assigned. -/
structure InterpState where
  res : Option Int := none
  scale : Option (List (List ℕ)) := none
  cubes : Option (List (List ℕ)) := none
  deriving DecidableEq, Repr

/-- `struct.unpack('i', …)`: little-endian signed 32-bit integer from 4 bytes. -/
def int32LE (bs : List ℕ) : Int :=
  let u := bs.getD 0 0 + 256 * bs.getD 1 0 + 65536 * bs.getD 2 0 +
    16777216 * bs.getD 3 0
  if u < 2 ^ 31 then (u : Int) else (u : Int) - 2 ^ 32

/-- A byte list split into consecutive 4-byte items. -/
def chunk4 : List ℕ → List (List ℕ)
  | b0 :: b1 :: b2 :: b3 :: rest => [b0, b1, b2, b3] :: chunk4 rest
  | _ => []

/-- `np.fromfile(fd, count=c, dtype=np.float32)`: reads up to `c` whole 4-byte
items (all remaining items when `c` is negative), without raising on a short
read; returns the items and the rest of the stream. -/
def readFloat32s (count : Int) (bs : List ℕ) : List (List ℕ) × List ℕ :=
  let avail := bs.length / 4
  let k := if count < 0 then avail else min count.toNat avail
  (chunk4 (bs.take (4 * k)), bs.drop (4 * k))

/-- `True` exactly on `Except.error`. -/
def exceptIsError : Except String Unit → Bool
  | .error _ => true
  | .ok _ => false

/-- `Jakob2019Interpolator.from_file(path)` (`jakob2019.py`, lines 339-355),
as a function of the file's bytes: returns the outcome together with the
object state it leaves behind.  The magic check raises before any field is
assigned; `self.res` and `self.scale` are assigned *before* the coefficient
reshape can fail; `self.cubes` is assigned last. -/
def from_file (bytes : List ℕ) : Except String Unit × InterpState :=
  if bytes.take 4 ≠ [83, 80, 69, 67] then
    (Except.error "Bad magic number, this likely is not the right file type!",
     {})
  else
    let r1 := bytes.drop 4
    if r1.length < 4 then
      (Except.error "struct.error: unpack requires a buffer of 4 bytes", {})
    else
      let res := int32LE (r1.take 4)
      let r2 := r1.drop 4
      let scaleRead := readFloat32s res r2
      let st1 : InterpState := { res := some res, scale := some scaleRead.1 }
      let coeffsRead := readFloat32s (3 * res ^ 3 * 3) scaleRead.2
      if res < 0 then
        (Except.error "ValueError: cannot reshape with negative dimensions",
         st1)
      else if coeffsRead.1.length ≠ 3 * res.toNat ^ 3 * 3 then
        (Except.error "ValueError: cannot reshape array", st1)
      else
        (Except.ok (), { st1 with cubes := some coeffsRead.1 })

/-! ### The table interpolator (`Jakob2019Interpolator.coefficients`) -/

/-- `np.searchsorted(pts, x, side='left')` on the first `m` points of a sorted
axis: the number of grid points strictly below `x`. -/
def searchsorted (m : ℕ) (pts : ℕ → ℚ) (x : ℚ) : ℕ :=
  ((Finset.range m).filter fun j => pts j < x).card

/-- The cell index scipy's `RegularGridInterpolator` locates along one axis:
`searchsorted - 1`, clipped to `[0, m-2]`. -/
def cellIndex (m : ℕ) (pts : ℕ → ℚ) (x : ℚ) : ℕ :=
  min (searchsorted m pts x - 1) (m - 2)

/-- One-dimensional linear interpolation along an axis of `m` points. -/
def interp1 (m : ℕ) (pts : ℕ → ℚ) (f : ℕ → ℚ) (x : ℚ) : ℚ :=
  let i := cellIndex m pts x
  let t := (x - pts i) / (pts (i + 1) - pts i)
  (1 - t) * f i + t * f (i + 1)

/-- Whether `x` lies within the axis' range (scipy's out-of-bounds test under
`bounds_error=False`). -/
def inBounds (m : ℕ) (pts : ℕ → ℚ) (x : ℚ) : Prop :=
  pts 0 ≤ x ∧ x ≤ pts (m - 1)

instance (m : ℕ) (pts : ℕ → ℚ) (x : ℚ) : Decidable (inBounds m pts x) :=
  inferInstanceAs (Decidable (_ ∧ _))

/-- `np.linspace(0, 1, N)` over `ℚ`: the two `samples` axes of the table. -/
def linspaceQ (N j : ℕ) : ℚ := (j : ℚ) / ((N : ℚ) - 1)

/-- The channel axis `[0, 1, 2]`. -/
def channelAxis (c : ℕ) : ℚ := (c : ℚ)

/-- Modelled from the spec: scipy's `RegularGridInterpolator` (not part of the
repository) over the axes `([0,1,2], scale, linspace(N), linspace(N))` with
`bounds_error=False`: "multilinear interpolation" applied axis by axis,
returning the NaN sentinel (`none`) for out-of-bounds queries, "no
extrapolation".  The table's values carry a trailing coefficient-triplet
dimension, interpolated componentwise. -/
def interp4 (N : ℕ) (scale : ℕ → ℚ) (v : ℕ → ℕ → ℕ → ℕ → Fin 3 → ℚ)
    (x0 x1 x2 x3 : ℚ) : Option (Fin 3 → ℚ) :=
  if inBounds 3 channelAxis x0 ∧ inBounds N scale x1 ∧
      inBounds N (linspaceQ N) x2 ∧ inBounds N (linspaceQ N) x3 then
    some fun a =>
      interp1 3 channelAxis (fun b0 =>
        interp1 N scale (fun b1 =>
          interp1 N (linspaceQ N) (fun b2 =>
            interp1 N (linspaceQ N) (fun b3 => v b0 b1 b2 b3 a) x3) x2) x1) x0
  else none

/-- The interpolation coordinates `(imax, vmax, v2, v3)` that
`Jakob2019Interpolator.coefficients` computes from an RGB triplet
(`jakob2019.py`, lines 357-370): `imax` the first index of the largest
channel (`np.argmax`), `vmax` its value, `v2`/`v3` the other two channels
divided by `vmax + 1e-10`. -/
def interpolatorCoords (RGB : Fin 3 → ℚ) : ℚ × ℚ × ℚ × ℚ :=
  let vmax := max (RGB 0) (max (RGB 1) (RGB 2))
  let imax : ℕ :=
    if RGB 1 ≤ RGB 0 ∧ RGB 2 ≤ RGB 0 then 0
    else if RGB 2 ≤ RGB 1 then 1 else 2
  let chroma : Fin 3 → ℚ := fun a => RGB a / (vmax + 1 / 10 ^ 10)
  let v2 := chroma ⟨(imax + 2) % 3, Nat.mod_lt _ (by norm_num)⟩
  let v3 := chroma ⟨(imax + 1) % 3, Nat.mod_lt _ (by norm_num)⟩
  ((imax : ℚ), vmax, v2, v3)

/-- `Jakob2019Interpolator.coefficients(RGB)` (`jakob2019.py`, lines 357-371)
against a loaded table of resolution `N` with axis `scale` and coefficient
tensor `v`: decompose `RGB` into `(imax, vmax, v2, v3)` and interpolate. -/
def interpolatorCoefficients (N : ℕ) (scale : ℕ → ℚ)
    (v : ℕ → ℕ → ℕ → ℕ → Fin 3 → ℚ) (RGB : Fin 3 → ℚ) : Option (Fin 3 → ℚ) :=
  let coords := interpolatorCoords RGB
  interp4 N scale v coords.1 coords.2.1 coords.2.2.1 coords.2.2.2

/-! ### The coefficient solver (`coefficients_Jakob2019`) -/

noncomputable section

/-- A colour-matching-functions object: its shape and per-channel values. -/
structure CMFS where
  shape : SpectralShape
  values : ℕ → Fin 3 → ℝ
  name : String

/-- A spectral distribution object: its shape, values and name label. -/
structure SpectralDistributionObj where
  shape : SpectralShape
  values : ℕ → ℝ
  name : String

instance : Inhabited SpectralDistributionObj := ⟨⟨⟨0, 0, 0⟩, fun _ => 0, ""⟩⟩

/-- The external collaborators `coefficients_Jakob2019` calls but whose code is
outside the staged sources: `SpectralDistribution.align` (resampling),
`sd_to_XYZ`, `XYZ_to_xy`, `XYZ_to_Lab` and scipy's `minimize` (returning
`(opt.x, opt.fun)`).  The solver is verified for every choice of these. -/
structure Externals where
  alignSD : SpectralDistributionObj → SpectralShape → SpectralDistributionObj
  sdToXYZ : SpectralDistributionObj → Fin 3 → ℝ
  xyOfXYZ : (Fin 3 → ℝ) → ℝ × ℝ
  labOfXYZ : (Fin 3 → ℝ) → ℝ × ℝ → Fin 3 → ℝ
  minimize : ((ℝ × ℝ × ℝ) → ℝ × (Fin 3 → ℝ)) → (ℝ × ℝ × ℝ) → (ℝ × ℝ × ℝ) × ℝ

/-- The `ErrorInputs` the solver hands `error_function_Jakob2019`: coefficients
`c`, Lab `target`, the cmfs wavelengths/values, the (possibly realigned)
illuminant values sampled on its shape, and the illuminant XYZ. -/
def mkErrorInputs (c : ℝ × ℝ × ℝ) (target : Fin 3 → ℝ) (cmfs : CMFS)
    (ill : SpectralDistributionObj) (illXYZ : Fin 3 → ℝ) : ErrorInputs :=
  { c0 := c.1, c1 := c.2.1, c2 := c.2.2, target := target,
    cmfsWl := fun i => ((cmfs.shape.range.getD i 0 : ℚ) : ℝ),
    cmfsV := cmfs.values, illValues := ill.values, illuminantXYZ := illXYZ }

/-- `dimensionalise_coefficients` at the solver's call site, where the
optimiser's coefficients are floats (reals); same formulas as the `ℚ`
version. -/
def dimensionalise_coefficientsR (c : ℝ × ℝ × ℝ) (shape : SpectralShape) :
    ℝ × ℝ × ℝ :=
  let span : ℝ := (shape.stop : ℝ) - (shape.start : ℝ)
  (c.1 / span ^ 2,
   c.2.1 / span - 2 * c.1 * (shape.start : ℝ) / span ^ 2,
   c.1 * (shape.start : ℝ) ^ 2 / span ^ 2 - c.2.1 * (shape.start : ℝ) / span
     + c.2.2)

/-- What one call of `coefficients_Jakob2019` does and returns: whether a
runtime warning was emitted, the illuminant object the rest of the function
used, and the returned `(coefficients, error)` pair. -/
structure SolverRun where
  warned : Bool
  illuminantUsed : SpectralDistributionObj
  coefficients : ℝ × ℝ × ℝ
  error : ℝ

/-- The solver body after the shape check (`jakob2019.py`, lines 270-288):
derive the illuminant XYZ and chromaticity, the Lab target, minimise the error
function, optionally dimensionalise. -/
def solverRest (ext : Externals) (targetXYZ : Fin 3 → ℝ) (cmfs : CMFS)
    (ill2 : SpectralDistributionObj) (coefficients0 : ℝ × ℝ × ℝ) (dim : Bool)
    (warned : Bool) : SolverRun :=
  let shape := ill2.shape
  let illuminant_XYZ := fun a => ext.sdToXYZ ill2 a / 100
  let illuminant_xy := ext.xyOfXYZ illuminant_XYZ
  let target := ext.labOfXYZ targetXYZ illuminant_xy
  let opt := ext.minimize
    (fun c =>
      error_function_Jakob2019 (mkErrorInputs c target cmfs ill2 illuminant_XYZ)
        shape)
    coefficients0
  let coefficients :=
    if dim then dimensionalise_coefficientsR opt.1 shape else opt.1
  { warned := warned, illuminantUsed := ill2, coefficients := coefficients,
    error := opt.2 }

/-- `coefficients_Jakob2019(target_XYZ, cmfs, illuminant, coefficients_0,
dimensionalise)` (`jakob2019.py`, lines 226-288): when the illuminant's shape
differs from the cmfs' shape, a runtime warning is emitted and a realigned
copy of the illuminant is used; otherwise the illuminant is used as given. -/
def coefficients_Jakob2019 (ext : Externals) (targetXYZ : Fin 3 → ℝ)
    (cmfs : CMFS) (illuminant : SpectralDistributionObj)
    (coefficients0 : ℝ × ℝ × ℝ) (dim : Bool) : SolverRun :=
  if illuminant.shape ≠ cmfs.shape then
    solverRest ext targetXYZ cmfs (ext.alignSD illuminant cmfs.shape)
      coefficients0 dim true
  else
    solverRest ext targetXYZ cmfs illuminant coefficients0 dim false

/-! ### Python object semantics for C10: a heap of spectral distributions

`illuminant.copy().align(shape)` mutates a fresh copy, never the caller's
object; the heap model makes that observable. -/

/-- References into a heap of `SpectralDistributionObj`. -/
structure SDHeap where
  sds : List SpectralDistributionObj

/-- Dereference. -/
def SDHeap.get (h : SDHeap) (r : ℕ) : SpectralDistributionObj :=
  h.sds.getD r default

/-- `sd.copy()`: allocate a fresh object with the same value; returns the new
reference and heap. -/
def SDHeap.copy (h : SDHeap) (r : ℕ) : ℕ × SDHeap :=
  (h.sds.length, ⟨h.sds ++ [h.get r]⟩)

/-- `sd.align(shape)`: in-place mutation of the referenced object by the
external resampling `alignSD`. -/
def SDHeap.alignAt (h : SDHeap)
    (alignFn : SpectralDistributionObj → SpectralShape → SpectralDistributionObj)
    (r : ℕ) (s : SpectralShape) : SDHeap :=
  ⟨h.sds.set r (alignFn (h.get r) s)⟩

/-- `coefficients_Jakob2019` with the illuminant passed by reference into a
heap, mirroring Python: on a shape mismatch the function mutates (aligns) a
fresh *copy* (`illuminant.copy().align(cmfs.shape)`); the caller's object is
never written. -/
def coefficients_Jakob2019_heap (ext : Externals) (targetXYZ : Fin 3 → ℝ)
    (cmfs : CMFS) (illRef : ℕ) (coefficients0 : ℝ × ℝ × ℝ) (dim : Bool)
    (h : SDHeap) : SolverRun × SDHeap :=
  if (h.get illRef).shape ≠ cmfs.shape then
    let rh := h.copy illRef
    let h2 := rh.2.alignAt ext.alignSD rh.1 cmfs.shape
    (solverRest ext targetXYZ cmfs (h2.get rh.1) coefficients0 dim true, h2)
  else
    (solverRest ext targetXYZ cmfs (h.get illRef) coefficients0 dim false, h)

/-- A fixed trivial instantiation of the external collaborators, used only to
evaluate theorems at concrete inputs. -/
def trivialExternals : Externals :=
  { alignSD := fun sd s => { sd with shape := s },
    sdToXYZ := fun _ _ => 0,
    xyOfXYZ := fun _ => (0, 0),
    labOfXYZ := fun _ _ _ => 0,
    minimize := fun _ c => (c, 0) }

/-- A fixed trivial `ErrorInputs`, used only to evaluate theorems at concrete
inputs. -/
def zeroErrorInputs : ErrorInputs :=
  { c0 := 0, c1 := 0, c2 := 0, target := fun _ => 0, cmfsWl := fun _ => 0,
    cmfsV := fun _ _ => 0, illValues := fun _ => 0,
    illuminantXYZ := fun _ => 0 }

end

/-- A fixed small coefficient tensor, used only to evaluate theorems at a
concrete table. -/
def exampleTensor (b0 b1 b2 b3 : ℕ) (a : Fin 3) : ℚ :=
  ((b0 + 2 * b1 + 3 * b2 + 4 * b3 + (a : ℕ) : ℕ) : ℚ)

end Jakob2019

namespace Jakob2019

/-! ## Theorems -/

/-- Helper: the sigmoid-like saturation `1/2 + U/(2·√(1+U²))` lies strictly
between `0` and `1` for every real `U`. -/
theorem sigmoid_bounds (U : ℝ) :
    0 < 1 / 2 + U / (2 * Real.sqrt (1 + U ^ 2)) ∧
      1 / 2 + U / (2 * Real.sqrt (1 + U ^ 2)) < 1 := by
  have h1 : (0 : ℝ) < 1 + U ^ 2 := by positivity
  have hs : 0 < Real.sqrt (1 + U ^ 2) := Real.sqrt_pos.mpr h1
  have habs : |U| < Real.sqrt (1 + U ^ 2) := by
    have h2 : Real.sqrt (U ^ 2) < Real.sqrt (1 + U ^ 2) :=
      Real.sqrt_lt_sqrt (sq_nonneg U) (by linarith)
    rwa [Real.sqrt_sq_eq_abs] at h2
  have key : |U / (2 * Real.sqrt (1 + U ^ 2))| < 1 / 2 := by
    rw [abs_div, abs_of_pos (by positivity : (0 : ℝ) < 2 * Real.sqrt (1 + U ^ 2)),
      div_lt_iff₀ (by positivity)]
    calc |U| < Real.sqrt (1 + U ^ 2) := habs
    _ = 1 / 2 * (2 * Real.sqrt (1 + U ^ 2)) := by ring
  obtain ⟨hl, hr⟩ := abs_lt.mp key
  exact ⟨by linarith, by linarith⟩

/-- **C1** — `dimensionalise_coefficients` exactly reverses the `[0,1]` domain
normalisation: for every coefficient triplet `(cp0, cp1, cp2)` and every shape
with `span = end - start > 0`, it returns
`(cp0/span², cp1/span − 2·cp0·start/span², cp0·start²/span² − cp1·start/span + cp2)`;
consequently for every wavelength `λ`, the dimensional quadratic at `λ` equals
the nondimensional quadratic at `t = (λ - start)/span`, and
dimensional → nondimensional → dimensional conversion reproduces the original
triplet. -/
theorem dimensionalise_coefficients_reverses_normalisation
    (cp : ℚ × ℚ × ℚ) (c : ℚ × ℚ × ℚ) (shape : SpectralShape)
    (hspan : 0 < shape.stop - shape.start) :
    dimensionalise_coefficients cp shape =
      (cp.1 / (shape.stop - shape.start) ^ 2,
       cp.2.1 / (shape.stop - shape.start) -
         2 * cp.1 * shape.start / (shape.stop - shape.start) ^ 2,
       cp.1 * shape.start ^ 2 / (shape.stop - shape.start) ^ 2 -
         cp.2.1 * shape.start / (shape.stop - shape.start) + cp.2.2) ∧
    (∀ lam : ℚ,
      quadratic (dimensionalise_coefficients cp shape) lam =
        quadratic cp ((lam - shape.start) / (shape.stop - shape.start))) ∧
    dimensionalise_coefficients (nondimensionalise_coefficients c shape) shape
      = c := by
  have hne : shape.stop - shape.start ≠ 0 := ne_of_gt hspan
  refine ⟨rfl, ?_, ?_⟩
  · intro lam
    simp only [dimensionalise_coefficients, quadratic]
    field_simp
    ring
  · simp only [dimensionalise_coefficients, nondimensionalise_coefficients]
    obtain ⟨c0, c1, c2⟩ := c
    refine Prod.ext ?_ (Prod.ext ?_ ?_) <;> simp only <;> field_simp <;> ring

/-- **C1** witness: the theorem applied at the concrete triplets
`cp = (1, 2, 3)`, `c = (4, 5, 6)` and the default shape `(360, 780, 5)`. -/
theorem dimensionalise_coefficients_reverses_normalisation_witness :
    (0 : ℚ) < (780 : ℚ) - 360 ∧
    dimensionalise_coefficients
        (nondimensionalise_coefficients (4, 5, 6) ⟨360, 780, 5⟩) ⟨360, 780, 5⟩
      = (4, 5, 6) :=
  ⟨by norm_num,
   (dimensionalise_coefficients_reverses_normalisation (1, 2, 3) (4, 5, 6)
      ⟨360, 780, 5⟩ (by norm_num)).2.2⟩

/-- **C2** — `error_function_Jakob2019` returns as error the Euclidean distance
`√(Σ_j (Lab[j] − target[j])²)` between computed and target Lab (CIE76), and as
gradient the vector `(Σ_j dLab[j][i]·(Lab[j] − target[j])) / error` — the
division by `error` happens unconditionally, so when the computed Lab equals
the target the error is exactly `0` and the gradient computation divides by
zero; conversely whenever the computed Lab differs from the target the error
is nonzero, so the gradient is well defined. -/
theorem error_function_error_euclidean_and_gradient
    (A : ErrorInputs) (shape : SpectralShape) :
    (error_function_Jakob2019 A shape).1 =
      Real.sqrt
        (∑ a : Fin 3, (LabOf A shape.numSamples a - A.target a) ^ 2) ∧
    (∀ i : Fin 3,
      (error_function_Jakob2019 A shape).2 i =
        (∑ j : Fin 3, dLabOf A shape.numSamples j i *
          (LabOf A shape.numSamples j - A.target j)) /
          (error_function_Jakob2019 A shape).1) ∧
    (LabOf A shape.numSamples = A.target →
      (error_function_Jakob2019 A shape).1 = 0) ∧
    (LabOf A shape.numSamples ≠ A.target →
      (error_function_Jakob2019 A shape).1 ≠ 0) := by
  refine ⟨rfl, fun i => rfl, ?_, ?_⟩
  · intro h
    simp [error_function_Jakob2019, errorOf, h]
  · intro h
    have ⟨a, ha⟩ : ∃ a, LabOf A shape.numSamples a ≠ A.target a := by
      by_contra hc
      push_neg at hc
      exact h (funext hc)
    have hpos : 0 < ∑ b : Fin 3, (LabOf A shape.numSamples b - A.target b) ^ 2 := by
      refine Finset.sum_pos' (fun b _ => sq_nonneg _) ⟨a, Finset.mem_univ a, ?_⟩
      exact lt_of_le_of_ne (sq_nonneg _)
        (Ne.symm (pow_ne_zero 2 (sub_ne_zero.mpr ha)))
    exact ne_of_gt (Real.sqrt_pos.mpr hpos)

/-- **C4** — the reflectance produced by `spectral_model`, and the `R` computed
inside `error_function_Jakob2019`, lie strictly between `0` and `1` at every
sampled wavelength, for every coefficient triplet, with no clamping. -/
theorem reflectance_strictly_between_zero_and_one :
    (∀ (c : ℝ × ℝ × ℝ) (shape : SpectralShape),
      ∀ p ∈ spectral_model c shape, 0 < p.2 ∧ p.2 < 1) ∧
    (∀ (A : ErrorInputs) (n i : ℕ), 0 < Rfun A n i ∧ Rfun A n i < 1) := by
  constructor
  · intro c shape p hp
    simp only [spectral_model, List.mem_map] at hp
    obtain ⟨wl, -, rfl⟩ := hp
    exact sigmoid_bounds _
  · intro A n i
    simpa [Rfun, t1fun] using sigmoid_bounds (Ufun A n i)

/-- **C5** — `error_function_Jakob2019` evaluates over a wavelength axis
normalised to `[0,1]` with one point per sample, so two shapes with the same
sample count give identical error and gradient, regardless of their nanometer
start, end and interval. -/
theorem error_function_depends_only_on_sample_count
    (A : ErrorInputs) (s1 s2 : SpectralShape)
    (h : s1.numSamples = s2.numSamples) :
    error_function_Jakob2019 A s1 = error_function_Jakob2019 A s2 := by
  simp only [error_function_Jakob2019, h]

/-- **C5** witness: the shapes `(360, 780, 5)` and `(0, 84, 1)` differ in
start, end and interval but both have 85 samples; the error function agrees on
them. -/
theorem error_function_depends_only_on_sample_count_witness :
    SpectralShape.numSamples ⟨360, 780, 5⟩ = SpectralShape.numSamples ⟨0, 84, 1⟩ ∧
    error_function_Jakob2019 zeroErrorInputs ⟨360, 780, 5⟩ =
      error_function_Jakob2019 zeroErrorInputs ⟨0, 84, 1⟩ := by
  have h : SpectralShape.numSamples ⟨360, 780, 5⟩
      = SpectralShape.numSamples ⟨0, 84, 1⟩ := by
    have h1 : SpectralShape.numSamples ⟨360, 780, 5⟩ = 85 := by
      norm_num [SpectralShape.numSamples]
      rfl
    have h2 : SpectralShape.numSamples ⟨0, 84, 1⟩ = 85 := by
      norm_num [SpectralShape.numSamples]
      rfl
    rw [h1, h2]
  exact ⟨h, error_function_depends_only_on_sample_count zeroErrorInputs _ _ h⟩

/-- **C7** — for the coefficient triplet `(0, 0, 0)` and every spectral shape,
`spectral_model` returns the value `0.5` at every sampled wavelength. -/
theorem spectral_model_zero_coefficients_half
    (shape : SpectralShape) (p : ℚ × ℝ)
    (hp : p ∈ spectral_model (0, 0, 0) shape) : p.2 = 1 / 2 := by
  simp only [spectral_model, List.mem_map] at hp
  obtain ⟨wl, -, rfl⟩ := hp
  norm_num

/-- **C7** witness: for the shape `(0, 1, 1)` the sample at wavelength `0` has
value `1/2`. -/
theorem spectral_model_zero_coefficients_half_witness :
    ((0 : ℚ), (1 : ℝ) / 2) ∈ spectral_model (0, 0, 0) ⟨0, 1, 1⟩ ∧
    ((0 : ℚ), (1 : ℝ) / 2).2 = 1 / 2 := by
  have hmem : ((0 : ℚ), (1 : ℝ) / 2) ∈ spectral_model (0, 0, 0) ⟨0, 1, 1⟩ := by
    have h2 : SpectralShape.numSamples ⟨0, 1, 1⟩ = 2 := by
      norm_num [SpectralShape.numSamples]
      rfl
    simp only [spectral_model, SpectralShape.range, h2, List.mem_map]
    refine ⟨0, by norm_num [List.range_succ], ?_⟩
    norm_num
  exact ⟨hmem, spectral_model_zero_coefficients_half _ _ hmem⟩

end Jakob2019

namespace Jakob2019

/-- **C3** (amended) — `from_file` on a malformed or truncated file fails with
an error surfaced to the caller, and `self.cubes` is never set on failure; on
a bad magic (or a header too short for the resolution integer) no field at all
is set; but when the scale array or coefficient tensor is truncated, the
failure happens *after* `self.res` and `self.scale` were already assigned, so
those two fields are published despite the error. -/
theorem from_file_failure_leaves_no_cubes (bytes : List ℕ) :
    (exceptIsError (from_file bytes).1 = true → (from_file bytes).2.cubes = none) ∧
    (bytes.take 4 ≠ [83, 80, 69, 67] → (from_file bytes).2 = {}) ∧
    (bytes.take 4 = [83, 80, 69, 67] → (bytes.drop 4).length < 4 →
      (from_file bytes).2 = {}) ∧
    (bytes.take 4 = [83, 80, 69, 67] → 4 ≤ (bytes.drop 4).length →
      exceptIsError (from_file bytes).1 = true →
      (from_file bytes).2.res = some (int32LE ((bytes.drop 4).take 4)) ∧
      (from_file bytes).2.scale ≠ none) := by
  by_cases h1 : bytes.take 4 = [83, 80, 69, 67]
  · by_cases h2 : bytes.length - 4 < 4
    · simp [from_file, h1, h2, exceptIsError]
    · by_cases h3 : int32LE ((bytes.drop 4).take 4) < 0
      · simp [from_file, h1, h2, h3, exceptIsError]
      · by_cases h4 : (readFloat32s (3 * int32LE ((bytes.drop 4).take 4) ^ 3 * 3)
            (readFloat32s (int32LE ((bytes.drop 4).take 4)) (bytes.drop 8)).2).1.length
            = 3 * (int32LE ((bytes.drop 4).take 4)).toNat ^ 3 * 3
        · simp [from_file, h1, h2, h3, h4, exceptIsError]
        · simp [from_file, h1, h2, h3, h4, exceptIsError]
  · simp [from_file, h1, exceptIsError]

/-- **C3** counterexample to the claim as stated: the file
`"SPEC" ++ int32(1)` (truncated right after the header) makes `from_file`
fail, yet `self.res = 1` and `self.scale = []` *were* assigned on the object —
partial table state is published. -/
theorem from_file_truncated_publishes_res :
    exceptIsError (from_file [83, 80, 69, 67, 1, 0, 0, 0]).1 = true ∧
    (from_file [83, 80, 69, 67, 1, 0, 0, 0]).2.res = some 1 ∧
    (from_file [83, 80, 69, 67, 1, 0, 0, 0]).2.scale = some [] := by decide

end Jakob2019

namespace Jakob2019

/-- **C6** — in `coefficients_Jakob2019`, a runtime warning is emitted *iff*
the illuminant's shape differs from the cmfs' shape; in that case the
illuminant is realigned (resampled) to the cmfs shape and execution continues
with the realigned copy; when the shapes already match no warning is emitted
and the illuminant is used unchanged.  The realignment lands exactly on the
cmfs shape whenever the external `align` resamples to its target shape (the
behaviour the spec ascribes to it). -/
theorem coefficients_realignment_warning_iff (ext : Externals)
    (targetXYZ : Fin 3 → ℝ) (cmfs : CMFS) (illuminant : SpectralDistributionObj)
    (c0 : ℝ × ℝ × ℝ) (dim : Bool) :
    ((coefficients_Jakob2019 ext targetXYZ cmfs illuminant c0 dim).warned = true ↔
      illuminant.shape ≠ cmfs.shape) ∧
    (illuminant.shape = cmfs.shape →
      (coefficients_Jakob2019 ext targetXYZ cmfs illuminant c0 dim).warned = false ∧
      (coefficients_Jakob2019 ext targetXYZ cmfs illuminant c0 dim).illuminantUsed
        = illuminant) ∧
    (illuminant.shape ≠ cmfs.shape →
      (coefficients_Jakob2019 ext targetXYZ cmfs illuminant c0 dim).illuminantUsed
        = ext.alignSD illuminant cmfs.shape) ∧
    ((∀ sd s, (ext.alignSD sd s).shape = s) → illuminant.shape ≠ cmfs.shape →
      (coefficients_Jakob2019 ext targetXYZ cmfs illuminant c0 dim).illuminantUsed.shape
        = cmfs.shape) := by
  by_cases h : illuminant.shape = cmfs.shape
  · simp [coefficients_Jakob2019, solverRest, h]
  · refine ⟨by simp [coefficients_Jakob2019, solverRest, h], ?_, ?_, ?_⟩
    · intro he
      exact absurd he h
    · intro _
      simp [coefficients_Jakob2019, solverRest, h]
    · intro halign _
      simp [coefficients_Jakob2019, solverRest, h, halign]

/-- **C10** — `coefficients_Jakob2019` never mutates the caller's arguments:
in the heap model of Python objects, every pre-existing heap cell — in
particular the caller's illuminant — is unchanged after the call, even when a
shape mismatch triggers realignment (the mutation falls on the fresh
`illuminant.copy()`). -/
theorem coefficients_heap_never_mutates_caller
    (ext : Externals) (targetXYZ : Fin 3 → ℝ) (cmfs : CMFS) (illRef : ℕ)
    (c0 : ℝ × ℝ × ℝ) (dim : Bool) (h : SDHeap) (r : ℕ)
    (hr : r < h.sds.length) :
    ((coefficients_Jakob2019_heap ext targetXYZ cmfs illRef c0 dim h).2).get r
      = h.get r := by
  unfold coefficients_Jakob2019_heap
  by_cases hm : (h.get illRef).shape = cmfs.shape
  · simp [hm]
  · simp only [hm, ne_eq, not_false_eq_true, if_true, if_neg]
    simp only [SDHeap.get, SDHeap.copy, SDHeap.alignAt]
    rw [List.getD_eq_getElem?_getD, List.getElem?_set_ne (by omega : h.sds.length ≠ r),
      List.getElem?_append_left hr, List.getD_eq_getElem?_getD]

/-- **C10** witness: a one-cell heap holding the caller's illuminant, whose
shape differs from the cmfs shape (so realignment is exercised); the cell is
unchanged by the call. -/
theorem coefficients_heap_never_mutates_caller_witness :
    0 < (SDHeap.mk [default]).sds.length ∧
    ((coefficients_Jakob2019_heap trivialExternals (fun _ => 0)
        ⟨⟨360, 780, 5⟩, fun _ _ => 0, "cmfs"⟩ 0 (0, 0, 0) true
        ⟨[default]⟩).2).get 0 = (SDHeap.mk [default]).get 0 :=
  ⟨by norm_num,
   coefficients_heap_never_mutates_caller trivialExternals (fun _ => 0)
     ⟨⟨360, 780, 5⟩, fun _ _ => 0, "cmfs"⟩ 0 (0, 0, 0) true ⟨[default]⟩ 0
     (by norm_num)⟩

end Jakob2019

namespace Jakob2019

/-- Helper: for a strictly increasing axis, `searchsorted` at the `i`-th grid
point returns `i`. -/
theorem searchsorted_node (m : ℕ) (pts : ℕ → ℚ) (i : ℕ) (hi : i < m)
    (hmono : ∀ a b, a < b → b < m → pts a < pts b) :
    searchsorted m pts (pts i) = i := by
  unfold searchsorted
  have hf : (Finset.range m).filter (fun j => pts j < pts i)
      = Finset.range i := by
    ext j
    simp only [Finset.mem_filter, Finset.mem_range]
    constructor
    · rintro ⟨hjm, hpj⟩
      by_contra hji
      push_neg at hji
      rcases eq_or_lt_of_le hji with rfl | hlt
      · exact lt_irrefl _ hpj
      · exact absurd (hmono i j hlt hjm) (by linarith)
    · intro hj
      exact ⟨hj.trans hi, hmono j i hj hi⟩
  rw [hf, Finset.card_range]

/-- Helper: one-dimensional linear interpolation, evaluated exactly at the
`i`-th point of a strictly increasing axis, returns the `i`-th value. -/
theorem interp1_node (m : ℕ) (pts : ℕ → ℚ) (f : ℕ → ℚ) (i : ℕ)
    (hi : i < m) (hmono : ∀ a b, a < b → b < m → pts a < pts b) :
    interp1 m pts f (pts i) = f i := by
  simp only [interp1, cellIndex, searchsorted_node m pts i hi hmono]
  rcases Nat.eq_zero_or_pos i with rfl | hpos
  · simp
  · have hidx : min (i - 1) (m - 2) = i - 1 := Nat.min_eq_left (by omega)
    have hsucc : i - 1 + 1 = i := Nat.succ_pred_eq_of_pos hpos
    rw [hidx, hsucc]
    have hne : pts i - pts (i - 1) ≠ 0 :=
      sub_ne_zero.mpr (ne_of_gt (hmono (i - 1) i (by omega) hi))
    rw [div_self hne]
    ring

/-- Helper: a grid point of a strictly increasing axis is within the axis'
bounds. -/
theorem node_inBounds (m : ℕ) (pts : ℕ → ℚ) (i : ℕ) (hi : i < m)
    (hmono : ∀ a b, a < b → b < m → pts a < pts b) :
    inBounds m pts (pts i) := by
  constructor
  · rcases Nat.eq_zero_or_pos i with rfl | hpos
    · exact le_refl _
    · exact le_of_lt (hmono 0 i hpos hi)
  · rcases eq_or_lt_of_le (Nat.le_pred_of_lt hi) with he | hlt
    · rw [he]
      exact le_refl _
    · exact le_of_lt (hmono i (m - 1) hlt (by omega))

/-- Helper: the channel axis `[0, 1, 2]` is strictly increasing. -/
theorem channelAxis_mono :
    ∀ a b : ℕ, a < b → b < 3 → channelAxis a < channelAxis b :=
  fun a b hab _ => by
    unfold channelAxis
    exact_mod_cast hab

/-- Helper: `linspace(0, 1, N)` is strictly increasing for `N ≥ 2`. -/
theorem linspaceQ_mono (N : ℕ) (hN : 2 ≤ N) :
    ∀ a b : ℕ, a < b → b < N → linspaceQ N a < linspaceQ N b := by
  intro a b hab _
  unfold linspaceQ
  have hden : (0 : ℚ) < (N : ℚ) - 1 := by
    have h2 : (2 : ℚ) ≤ (N : ℚ) := by exact_mod_cast hN
    linarith
  exact (div_lt_div_iff_of_pos_right hden).mpr (by exact_mod_cast hab)

/-- **C9** — for every loaded table (resolution `N ≥ 2`, strictly increasing
`scale`), the multilinear interpolation evaluated exactly at a grid node
`(c, scale[i], j/(N-1), k/(N-1))` reproduces exactly the coefficient triplet
stored at index `(c, i, j, k)`. -/
theorem interpolator_node_exact (N : ℕ) (scale : ℕ → ℚ)
    (v : ℕ → ℕ → ℕ → ℕ → Fin 3 → ℚ) (c i j k : ℕ)
    (hN : 2 ≤ N) (hscale : ∀ a b, a < b → b < N → scale a < scale b)
    (hc : c < 3) (hi : i < N) (hj : j < N) (hk : k < N) :
    interp4 N scale v (channelAxis c) (scale i) (linspaceQ N j) (linspaceQ N k)
      = some (v c i j k) := by
  have hb : inBounds 3 channelAxis (channelAxis c) ∧
      inBounds N scale (scale i) ∧
      inBounds N (linspaceQ N) (linspaceQ N j) ∧
      inBounds N (linspaceQ N) (linspaceQ N k) :=
    ⟨node_inBounds 3 channelAxis c hc channelAxis_mono,
     node_inBounds N scale i hi hscale,
     node_inBounds N (linspaceQ N) j hj (linspaceQ_mono N hN),
     node_inBounds N (linspaceQ N) k hk (linspaceQ_mono N hN)⟩
  unfold interp4
  rw [if_pos hb]
  congr 1
  funext a
  rw [interp1_node 3 channelAxis _ c hc channelAxis_mono,
    interp1_node N scale _ i hi hscale,
    interp1_node N (linspaceQ N) _ j hj (linspaceQ_mono N hN),
    interp1_node N (linspaceQ N) _ k hk (linspaceQ_mono N hN)]

/-- **C9** witness: a `2×2×2` table with axis `scale = [0, 1]` and the fixed
tensor, evaluated at node `(1, scale[1], 0/(N-1), 1/(N-1))`, returns the
stored triplet. -/
theorem interpolator_node_exact_witness :
    (∀ a b : ℕ, a < b → b < 2 → (fun q => (q : ℚ)) a < (fun q => (q : ℚ)) b) ∧
    interp4 2 (fun q => (q : ℚ)) exampleTensor (channelAxis 1) ((1 : ℕ) : ℚ)
      (linspaceQ 2 0) (linspaceQ 2 1) = some (exampleTensor 1 1 0 1) := by
  have hmono : ∀ a b : ℕ, a < b → b < 2 →
      (fun q => (q : ℚ)) a < (fun q => (q : ℚ)) b := by
    intro a b hab _
    show (a : ℚ) < (b : ℚ)
    exact_mod_cast hab
  exact ⟨hmono,
    interpolator_node_exact 2 (fun q => (q : ℚ)) exampleTensor 1 1 0 1
      (by norm_num) hmono (by norm_num) (by norm_num) (by norm_num)
      (by norm_num)⟩

/-- **C8** — for every loaded table and every query whose interpolation
coordinates `(imax, vmax, v2, v3)` fall outside the grid's axis ranges,
`Jakob2019Interpolator.coefficients` returns the sentinel (`none`, scipy's
NaN fill) rather than extrapolating or raising. -/
theorem interpolator_out_of_bounds_returns_sentinel (N : ℕ) (scale : ℕ → ℚ)
    (v : ℕ → ℕ → ℕ → ℕ → Fin 3 → ℚ) (RGB : Fin 3 → ℚ)
    (hout : ¬ (inBounds 3 channelAxis (interpolatorCoords RGB).1 ∧
      inBounds N scale (interpolatorCoords RGB).2.1 ∧
      inBounds N (linspaceQ N) (interpolatorCoords RGB).2.2.1 ∧
      inBounds N (linspaceQ N) (interpolatorCoords RGB).2.2.2)) :
    interpolatorCoefficients N scale v RGB = none := by
  simp only [interpolatorCoefficients, interp4]
  rw [if_neg hout]

/-- **C8** witness: with a table whose `scale` axis is `[0, 1]`, the query
`RGB = (2, 2, 2)` has `vmax = 2` above the scale range, so the result is the
sentinel. -/
theorem interpolator_out_of_bounds_returns_sentinel_witness :
    ¬ (inBounds 3 channelAxis (interpolatorCoords fun _ => 2).1 ∧
      inBounds 2 (fun q => (q : ℚ)) (interpolatorCoords fun _ => 2).2.1 ∧
      inBounds 2 (linspaceQ 2) (interpolatorCoords fun _ => 2).2.2.1 ∧
      inBounds 2 (linspaceQ 2) (interpolatorCoords fun _ => 2).2.2.2) ∧
    interpolatorCoefficients 2 (fun q => (q : ℚ)) exampleTensor (fun _ => 2)
      = none := by
  have hout : ¬ (inBounds 3 channelAxis (interpolatorCoords fun _ => 2).1 ∧
      inBounds 2 (fun q => (q : ℚ)) (interpolatorCoords fun _ => 2).2.1 ∧
      inBounds 2 (linspaceQ 2) (interpolatorCoords fun _ => 2).2.2.1 ∧
      inBounds 2 (linspaceQ 2) (interpolatorCoords fun _ => 2).2.2.2) := by
    intro hcon
    have h2 := hcon.2.1.2
    norm_num [interpolatorCoords, inBounds] at h2
  exact ⟨hout,
    interpolator_out_of_bounds_returns_sentinel 2 (fun q => (q : ℚ))
      exampleTensor (fun _ => 2) hout⟩

end Jakob2019
